import Mathlib

set_option linter.unusedSectionVars false
set_option maxRecDepth 4000

/-!
Verification development for the Timetracker real-time session and presence
layer.  The definitions below are a shallow embedding of
`backend/app/core/session.py` (SessionManager), `backend/app/core/security.py`
(token service) and `backend/app/core/websocket.py` (ConnectionManager).

Modelling conventions:
- Python dicts are embedded as association lists (`alookup` / `aset` /
  `aerase`), which preserve insertion order exactly as CPython dicts do.
- The Redis backing store is a pure `RedisState`; reachability of the store
  (`session_manager.redis_client` being non-None) is an explicit `Bool`
  parameter `r`.  The `try/except` blocks that swallow backend errors are
  represented by the functions being total.
- Wall-clock readings (`datetime.utcnow().isoformat()`) are explicit `String`
  parameters; JWT numeric times are explicit `Nat` parameters.
- `jwt.encode` / `jwt.decode` from python-jose are embedded as a `Token`
  carrying its payload and signing key; `decode` succeeds exactly when the
  key matches and the `exp` claim is not in the past (both signature and
  expiry failures raise `JWTError`, embedded as `none`).
- Python `str` on a nonnegative integer and `int` on a string are embedded
  as `pyStr` / `pyInt` below (restricted to unsigned decimal notation, the
  only shapes the code produces); `int` raising `ValueError` is `none`.
- Delivery of notification events (the `user_online` / `user_offline` /
  `typing_status` broadcasts fired from inside `connect`, `disconnect` and
  `handle_typing_status`) does not change the registry unless a send fails;
  a failed send is itself an `unregister`, which the theorems quantify over
  separately.  The send-failure oracle (`SendRes`) is threaded explicitly
  through `send_personal_message` and `broadcast_to_organization`, the two
  operations whose failure handling the claims are about.
-/

section AssocList

variable {κ : Type} {α : Type} [DecidableEq κ]

/-- Lookup in an insertion-ordered association list (Python `d.get(k)` /
`k in d` followed by `d[k]`). -/
def alookup (k : κ) : List (κ × α) → Option α
  | [] => none
  | (k', v) :: rest => if k' = k then some v else alookup k rest

/-- Write `d[k] = v` on an insertion-ordered association list: replaces the
value in place when the key exists, appends otherwise (CPython dict
semantics). -/
def aset (k : κ) (v : α) : List (κ × α) → List (κ × α)
  | [] => [(k, v)]
  | (k', w) :: rest => if k' = k then (k', v) :: rest else (k', w) :: aset k v rest

/-- Delete `del d[k]` on an association list; removes the first binding of
the key, identity when the key is absent. -/
def aerase (k : κ) : List (κ × α) → List (κ × α)
  | [] => []
  | (k', w) :: rest => if k' = k then rest else (k', w) :: aerase k rest

theorem alookup_aset_self (k : κ) (v : α) (m : List (κ × α)) :
    alookup k (aset k v m) = some v := by
  induction m with
  | nil => simp [aset, alookup]
  | cons p rest ih =>
    obtain ⟨a, b⟩ := p
    by_cases h : a = k
    · simp [aset, alookup, h]
    · simp [aset, alookup, h, ih]

theorem alookup_aset_ne (k k' : κ) (v : α) (m : List (κ × α)) (h : k' ≠ k) :
    alookup k (aset k' v m) = alookup k m := by
  induction m with
  | nil => simp [aset, alookup, h]
  | cons p rest ih =>
    obtain ⟨a, b⟩ := p
    by_cases hp : a = k'
    · subst hp
      simp [aset, alookup, h]
    · by_cases hk : a = k
      · subst hk
        simp [aset, alookup, hp]
      · simp [aset, alookup, hp, hk, ih]

theorem aerase_aset (k : κ) (v : α) (m : List (κ × α)) :
    aerase k (aset k v m) = aerase k m := by
  induction m with
  | nil => simp [aset, aerase]
  | cons p rest ih =>
    obtain ⟨a, b⟩ := p
    by_cases h : a = k
    · simp [aset, aerase, h]
    · simp [aset, aerase, h, ih]

theorem aerase_of_alookup_none (k : κ) (m : List (κ × α))
    (h : alookup k m = none) : aerase k m = m := by
  induction m with
  | nil => simp [aerase]
  | cons p rest ih =>
    obtain ⟨a, b⟩ := p
    by_cases hp : a = k
    · simp [alookup, hp] at h
    · simp [alookup, hp] at h
      simp [aerase, hp, ih h]

theorem alookup_aerase_ne (k k' : κ) (m : List (κ × α)) (h : k' ≠ k) :
    alookup k (aerase k' m) = alookup k m := by
  induction m with
  | nil => simp [aerase]
  | cons p rest ih =>
    obtain ⟨a, b⟩ := p
    by_cases hp : a = k'
    · subst hp
      simp [aerase, alookup, h]
    · by_cases hk : a = k
      · subst hk
        simp [aerase, alookup, hp]
      · simp [aerase, alookup, hp, hk, ih]

/-- The keys of an association list, in order. -/
def akeys : List (κ × α) → List κ
  | [] => []
  | p :: rest => p.1 :: akeys rest

theorem aerase_sublist (k : κ) (m : List (κ × α)) : (aerase k m).Sublist m := by
  induction m with
  | nil => simp [aerase]
  | cons p rest ih =>
    by_cases hp : p.1 = k
    · simp [aerase, hp]
    · simpa [aerase, hp] using List.Sublist.cons₂ p ih

theorem akeys_eq_map (m : List (κ × α)) : akeys m = m.map Prod.fst := by
  induction m with
  | nil => simp [akeys]
  | cons p rest ih => simp [akeys, ih]

theorem akeys_nodup_aerase (k : κ) (m : List (κ × α))
    (h : (akeys m).Nodup) : (akeys (aerase k m)).Nodup := by
  rw [akeys_eq_map] at h ⊢
  exact List.Nodup.sublist (List.Sublist.map Prod.fst (aerase_sublist k m)) h

theorem mem_akeys_aset (k k' : κ) (v : α) (m : List (κ × α)) :
    k ∈ akeys (aset k' v m) ↔ k = k' ∨ k ∈ akeys m := by
  induction m with
  | nil => simp [aset, akeys]
  | cons p rest ih =>
    obtain ⟨a, b⟩ := p
    by_cases hp : a = k'
    · subst hp
      simp [aset, akeys]
    · simp [aset, akeys, hp]
      rw [ih]
      tauto

theorem akeys_nodup_aset (k : κ) (v : α) (m : List (κ × α))
    (h : (akeys m).Nodup) : (akeys (aset k v m)).Nodup := by
  induction m with
  | nil => simp [aset, akeys]
  | cons p rest ih =>
    obtain ⟨a, b⟩ := p
    simp [akeys] at h
    by_cases hp : a = k
    · subst hp
      simpa [aset, akeys] using h
    · simp [aset, hp, akeys]
      refine ⟨?_, ih h.2⟩
      intro hmem
      rcases (mem_akeys_aset a k v rest).1 hmem with h1 | h1
      · exact hp h1
      · exact h.1 h1

theorem not_mem_akeys_of_alookup_none (k : κ) (m : List (κ × α))
    (h : alookup k m = none) : k ∉ akeys m := by
  induction m with
  | nil => simp [akeys]
  | cons p rest ih =>
    obtain ⟨a, b⟩ := p
    by_cases hp : a = k
    · simp [alookup, hp] at h
    · simp [alookup, hp] at h
      simp [akeys, ih h]
      exact fun hc => hp hc.symm

theorem alookup_eq_none_of_not_mem_akeys (k : κ) (m : List (κ × α))
    (h : k ∉ akeys m) : alookup k m = none := by
  induction m with
  | nil => simp [alookup]
  | cons p rest ih =>
    obtain ⟨a, b⟩ := p
    simp [akeys] at h
    have ha : a ≠ k := fun hc => h.1 hc.symm
    simp [alookup, ha, ih h.2]

theorem alookup_aerase_self_of_nodup (k : κ) (m : List (κ × α))
    (h : (akeys m).Nodup) : alookup k (aerase k m) = none := by
  induction m with
  | nil => simp [aerase, alookup]
  | cons p rest ih =>
    obtain ⟨a, b⟩ := p
    simp [akeys] at h
    by_cases hp : a = k
    · subst hp
      simp only [aerase, if_pos rfl]
      exact alookup_eq_none_of_not_mem_akeys _ rest h.1
    · simp [aerase, alookup, hp, ih h.2]

end AssocList

section Decimal

/-- Digit character for a value below ten (models the decimal digits of
Python `str` on an int). -/
def dchar (d : Nat) : Char := Char.ofNat (48 + d)

/-- Numeric value of a digit character. -/
def dval (c : Char) : Nat := c.toNat - 48

/-- Whether a character is an ASCII decimal digit. -/
def isDig (c : Char) : Bool := 48 ≤ c.toNat && c.toNat ≤ 57

/-- Fuel-indexed decimal rendering of a natural number, most significant
digit first.  `fuel` strictly exceeding the number makes the zero-fuel
branch unreachable. -/
def natChars : Nat → Nat → List Char
  | 0, _ => []
  | fuel + 1, n => if n < 10 then [dchar n] else natChars fuel (n / 10) ++ [dchar (n % 10)]

/-- Embedding of Python `str` on a nonnegative int. -/
def pyStr (n : Nat) : String := ⟨natChars (n + 1) n⟩

/-- Accumulating decimal parser over a character list. -/
def parseGo (acc : Nat) : List Char → Option Nat
  | [] => some acc
  | c :: cs => if isDig c then parseGo (acc * 10 + dval c) cs else none

/-- Embedding of Python `int` on a string, restricted to unsigned decimal
notation (the only shape the code under verification produces); `none`
models `int` raising `ValueError`. -/
def pyInt (s : String) : Option Nat :=
  match s.data with
  | [] => none
  | cs => parseGo 0 cs

theorem dval_dchar (d : Nat) (h : d < 10) : dval (dchar d) = d := by
  interval_cases d <;> decide

theorem isDig_dchar (d : Nat) (h : d < 10) : isDig (dchar d) = true := by
  interval_cases d <;> decide

theorem parseGo_append (acc : Nat) (l1 l2 : List Char) :
    parseGo acc (l1 ++ l2) =
      match parseGo acc l1 with
      | none => none
      | some a => parseGo a l2 := by
  induction l1 generalizing acc with
  | nil => simp [parseGo]
  | cons c cs ih =>
    by_cases h : isDig c
    · simp [parseGo, h, ih]
    · simp [parseGo, h]

theorem parseGo_natChars (fuel : Nat) :
    ∀ n acc, n < fuel →
      parseGo acc (natChars fuel n) =
        some (acc * 10 ^ (natChars fuel n).length + n) := by
  induction fuel with
  | zero => intro n acc h; omega
  | succ f ih =>
    intro n acc h
    by_cases hn : n < 10
    · simp [natChars, hn, parseGo, isDig_dchar n hn, dval_dchar n hn]
    · have hpos : 0 < n := by omega
      have hdiv : n / 10 < n := Nat.div_lt_self hpos (by omega)
      have hf : n / 10 < f := by omega
      have hm : n % 10 < 10 := Nat.mod_lt n (by omega)
      simp only [natChars, hn, if_false]
      rw [parseGo_append, ih (n / 10) acc hf]
      simp [parseGo, isDig_dchar _ hm, dval_dchar _ hm, List.length_append]
      rw [pow_succ]
      have := Nat.div_add_mod n 10
      ring_nf
      omega

theorem pyInt_pyStr (n : Nat) : pyInt (pyStr n) = some n := by
  have hne : natChars (n + 1) n ≠ [] := by
    by_cases hn : n < 10 <;> simp [natChars, hn]
  have hp := parseGo_natChars (n + 1) n 0 (Nat.lt_succ_self n)
  simp at hp
  cases hc : natChars (n + 1) n with
  | nil => exact absurd hc hne
  | cons c cs =>
    simp only [pyInt, pyStr, hc]
    rw [← hc, hp]

end Decimal

section SessionStore

/-- User snapshot stored in a session, as built by the login endpoint
(`auth.py` lines 47-53): `id`, `email`, `full_name`, `is_active`. -/
structure UserData where
  id : Nat
  email : String
  full_name : String
  is_active : Bool
deriving DecidableEq

/-- A session record as written by `SessionManager.create_session`
(`session.py` lines 60-66). -/
structure SessionRecord where
  user_id : Nat
  user_data : UserData
  created_at : String
  last_activity : String
deriving DecidableEq

/-- The Redis backing store: `session:<id>` string keys (sessions) and
`user_sessions:<user_id>` set keys (reverse index).  Redis sets are
embedded as duplicate-free lists; an empty set does not exist as a key,
which `sremFrom` maintains. -/
structure RedisState where
  sessions : List (String × SessionRecord)
  user_sessions : List (Nat × List String)
deriving DecidableEq

def emptyRedis : RedisState := { sessions := [], user_sessions := [] }

/-- Redis `SADD key member` on the reverse index. -/
def saddTo (st : RedisState) (user_id : Nat) (sid : String) : RedisState :=
  let prev := (alookup user_id st.user_sessions).getD []
  let l := if sid ∈ prev then prev else prev ++ [sid]
  { st with user_sessions := aset user_id l st.user_sessions }

/-- Redis `SREM key member` on the reverse index; a set emptied by the
removal disappears as a key. -/
def sremFrom (st : RedisState) (user_id : Nat) (sid : String) : RedisState :=
  match alookup user_id st.user_sessions with
  | none => st
  | some prev =>
    let l := prev.erase sid
    if l.isEmpty then { st with user_sessions := aerase user_id st.user_sessions }
    else { st with user_sessions := aset user_id l st.user_sessions }

/-- `SessionManager.create_session` (`session.py` lines 54-86).  `r` is the
reachability of the store (`self.redis_client`), `fresh` the generated
`uuid.uuid4()` string, `now` the current `isoformat()` clock reading.
Returns the session id (empty string when the store is unreachable) and
the new store state. -/
def create_session (r : Bool) (st : RedisState) (user_id : Nat) (ud : UserData)
    (fresh now : String) : String × RedisState :=
  if !r then ("", st)
  else
    let record : SessionRecord :=
      { user_id := user_id, user_data := ud, created_at := now, last_activity := now }
    let st1 := { st with sessions := aset fresh record st.sessions }
    (fresh, saddTo st1 user_id fresh)

/-- `SessionManager.get_session` (`session.py` lines 88-111): absent on an
unreachable store, an empty id, or a missing key; on a hit the record is
rewritten with a refreshed `last_activity` (read-refresh) and returned. -/
def get_session (r : Bool) (st : RedisState) (sid now : String) :
    Option SessionRecord × RedisState :=
  if !r || sid == "" then (none, st)
  else
    match alookup sid st.sessions with
    | none => (none, st)
    | some record =>
      let record1 := { record with last_activity := now }
      (some record1, { st with sessions := aset sid record1 st.sessions })

/-- `SessionManager.update_session` (`session.py` lines 113-133). -/
def update_session (r : Bool) (st : RedisState) (sid : String) (ud : UserData)
    (now : String) : RedisState :=
  if !r then st
  else
    match get_session r st sid now with
    | (none, st1) => st1
    | (some record, st1) =>
      let record1 := { record with user_data := ud, last_activity := now }
      { st1 with sessions := aset sid record1 st1.sessions }

/-- `SessionManager.delete_session` (`session.py` lines 135-156): reads the
record through `get_session` (which refreshes it), then deletes the key and
removes the id from the reverse index of the record owner. -/
def delete_session (r : Bool) (st : RedisState) (sid now : String) : RedisState :=
  if !r then st
  else
    match get_session r st sid now with
    | (none, st1) => st1
    | (some record, st1) =>
      let st2 := { st1 with sessions := aerase sid st1.sessions }
      sremFrom st2 record.user_id sid

/-- `SessionManager.delete_user_sessions` (`session.py` lines 158-178):
deletes every session named in the reverse index, then drops the index. -/
def delete_user_sessions (r : Bool) (st : RedisState) (user_id : Nat) : RedisState :=
  if !r then st
  else
    let sids := (alookup user_id st.user_sessions).getD []
    let st1 := { st with sessions := sids.foldl (fun m sid => aerase sid m) st.sessions }
    { st1 with user_sessions := aerase user_id st1.user_sessions }

/-- `SessionManager.cleanup_expired_sessions` (`session.py` lines 180-206):
for every reverse-index key keeps only the members whose session record
still exists, dropping the key when none survive. -/
def cleanup_expired_sessions (r : Bool) (st : RedisState) : RedisState :=
  if !r then st
  else
    { st with
      user_sessions := st.user_sessions.foldr
        (fun p acc =>
          let valid := p.2.filter (fun sid => (alookup sid st.sessions).isSome)
          if valid.isEmpty then acc else (p.1, valid) :: acc)
        [] }

/-- `SessionManager.get_active_sessions_count` (`session.py` lines 208-218):
`SCARD` of the reverse index, 0 when the store is unreachable. -/
def get_active_sessions_count (r : Bool) (st : RedisState) (user_id : Nat) : Nat :=
  if !r then 0
  else ((alookup user_id st.user_sessions).getD []).length

end SessionStore

section TokenService

/-- The JWT payload written by `create_access_token` (`security.py` lines
24-37) and read back by `verify_access_token` / `revoke_token`.  The
optional fields model `payload.get(...)` on an arbitrary decoded dict. -/
structure Claims where
  exp : Nat
  sub : Option String
  type : Option String
  session_id : Option String
deriving DecidableEq

/-- A signed JWT: its payload together with the key it was signed with. -/
structure Token where
  claims : Claims
  key : String
deriving DecidableEq

/-- python-jose `jwt.decode(token, key, algorithms=[...])`: verifies the
signature and the `exp` claim; a bad signature raises `JWTError` and a
past `exp` raises `ExpiredSignatureError`, a subclass of `JWTError` - both
are embedded as `none`. -/
def jwtDecode (tok : Token) (key : String) (now : Nat) : Option Claims :=
  if tok.key = key ∧ now ≤ tok.claims.exp then some tok.claims else none

/-- Result of `verify_access_token`: `invalid` models `return None`,
`raised` models an exception (the `int(user_id)` `ValueError`) escaping the
function, `ok` models the returned identity dict, with `user_data := none`
standing for the empty dict of the stateless fallback. -/
inductive VerifyOutcome where
  | raised
  | invalid
  | ok (user_id : Nat) (session_id : Option String) (user_data : Option UserData)
deriving DecidableEq

/-- `create_access_token` (`security.py` lines 11-40).  `secret` is
`settings.secret_key`, `default_minutes` is
`settings.access_token_expire_minutes`, `subject` is the result of
`str(subject)` (the login endpoint passes `user.id`), `expires_delta` the
optional timedelta in seconds (a zero timedelta is falsy and selects the
default), `r` the reachability of the session store, `fresh` the uuid a
session creation would use, `nowS` the current `isoformat()` reading. -/
def create_access_token (secret : String) (default_minutes : Nat) (subject : String)
    (user_data : Option UserData) (expires_delta : Option Nat) (r : Bool)
    (st : RedisState) (now : Nat) (nowS fresh : String) : Token × RedisState :=
  let expire :=
    match expires_delta with
    | some d => if d ≠ 0 then now + d else now + default_minutes * 60
    | none => now + default_minutes * 60
  let base : Claims :=
    { exp := expire, sub := some subject, type := some "access", session_id := none }
  match user_data, r with
  | some ud, true =>
    if ud.id ≠ 0 then
      let created := create_session true st ud.id ud fresh nowS
      if created.1 ≠ "" then
        ({ claims := { base with session_id := some created.1 }, key := secret }, created.2)
      else ({ claims := base, key := secret }, created.2)
    else ({ claims := base, key := secret }, st)
  | _, _ => ({ claims := base, key := secret }, st)

/-- `verify_access_token` (`security.py` lines 43-78).  Mirrors the source
exactly: JWT failure returns `invalid`; a missing subject or wrong type
marker returns `invalid`; with no (or empty) embedded session id or an
unreachable store it falls back to signature-only verification, where
`int(user_id)` may raise; otherwise the session record must exist and its
`user_id` must match the converted subject. -/
def verify_access_token (secret : String) (tok : Token) (r : Bool) (st : RedisState)
    (now : Nat) (nowS : String) : VerifyOutcome × RedisState :=
  match jwtDecode tok secret now with
  | none => (.invalid, st)
  | some payload =>
    match payload.sub with
    | none => (.invalid, st)
    | some subs =>
      if payload.type ≠ some "access" then (.invalid, st)
      else
        match payload.session_id with
        | none =>
          (match pyInt subs with
           | none => (.raised, st)
           | some uid => (.ok uid payload.session_id none, st))
        | some sid =>
          if sid == "" || !r then
            (match pyInt subs with
             | none => (.raised, st)
             | some uid => (.ok uid payload.session_id none, st))
          else
            match get_session r st sid nowS with
            | (none, st1) => (.invalid, st1)
            | (some record, st1) =>
              match pyInt subs with
              | none => (.raised, st1)
              | some uid =>
                if record.user_id ≠ uid then (.invalid, st1)
                else (.ok uid (some sid) (some record.user_data), st1)

/-- `revoke_token` (`security.py` lines 81-91): decodes the token with the
same fully-validating `jwt.decode` call (so a bad signature or a past
`exp` raises `JWTError`, silently caught), then deletes the embedded
session when one is named. -/
def revoke_token (secret : String) (tok : Token) (r : Bool) (st : RedisState)
    (now : Nat) (nowS : String) : RedisState :=
  match jwtDecode tok secret now with
  | none => st
  | some payload =>
    match payload.session_id with
    | none => st
    | some sid => if sid ≠ "" then delete_session r st sid nowS else st

/-- `revoke_all_user_tokens` (`security.py` lines 94-96). -/
def revoke_all_user_tokens (r : Bool) (st : RedisState) (user_id : Nat) : RedisState :=
  delete_user_sessions r st user_id

end TokenService

section ConnectionRegistry

/-- Outcome of `await websocket.send_text(...)` for one connection handle:
`ok` for success, `closed` for `WebSocketDisconnect`, `err` for any other
exception. -/
inductive SendRes where
  | ok
  | closed
  | err
deriving DecidableEq

def SendRes.isOk : SendRes → Bool
  | .ok => true
  | _ => false

/-- A user typing-state entry as stored by `handle_typing_status`
(`websocket.py` lines 163-167): the `timestamp` field is the server
`datetime.utcnow().isoformat()` reading taken when the entry was written. -/
structure TypingEntry where
  is_typing : Bool
  context : Option String
  timestamp : String
deriving DecidableEq

/-- The client payload of a `typing` message (`typing_data` in
`handle_typing_status`), read with `.get`: every field may be absent. -/
structure TypingData where
  is_typing : Option Bool
  context : Option String
  timestamp : Option String
deriving DecidableEq

/-- `ConnectionManager` state (`websocket.py` lines 14-18): organization id
to user id to list of connection handles (handles embedded as numbers),
plus the parallel typing-status table. -/
structure ManagerState where
  active_connections : List (Nat × List (Nat × List Nat))
  typing_status : List (Nat × List (Nat × TypingEntry))
deriving DecidableEq

def emptyManager : ManagerState := { active_connections := [], typing_status := [] }

/-- The connection list the code iterates for one user, when both dict
levels hold the key (`organization_id in self.active_connections and
user_id in self.active_connections[organization_id]`). -/
def lookup_conns (st : ManagerState) (org user : Nat) : Option (List Nat) :=
  match alookup org st.active_connections with
  | none => none
  | some um => alookup user um

/-- Registry effect of `ConnectionManager.connect` (`websocket.py` lines
24-30): create the organization and user slots if absent and append the
handle.  The `user_online` broadcast that follows (lines 33-41) only
delivers an event; its possible send failures surface as further
`disconnect` operations, which the theorems quantify over separately. -/
def connect (st : ManagerState) (org user conn : Nat) : ManagerState :=
  let um := (alookup org st.active_connections).getD []
  let conns := (alookup user um).getD []
  { st with active_connections := aset org (aset user (conns ++ [conn]) um) st.active_connections }

/-- `ConnectionManager.disconnect` (`websocket.py` lines 45-82): remove the
handle; a user whose list empties is deleted together with that user
typing-state entry (and a `user_offline` event is broadcast, delivery-only
here); an organization whose user map empties is deleted together with its
typing-state map. -/
def disconnect (st : ManagerState) (org user conn : Nat) : ManagerState :=
  match alookup org st.active_connections with
  | none => st
  | some um =>
    match alookup user um with
    | none => st
    | some conns =>
      let conns1 := conns.erase conn
      let st1 : ManagerState :=
        if conns1.isEmpty then
          let typing1 :=
            match alookup org st.typing_status with
            | none => st.typing_status
            | some tm =>
              if (alookup user tm).isSome then aset org (aerase user tm) st.typing_status
              else st.typing_status
          { active_connections := aset org (aerase user um) st.active_connections,
            typing_status := typing1 }
        else
          { st with active_connections := aset org (aset user conns1 um) st.active_connections }
      match alookup org st1.active_connections with
      | none => st1
      | some um1 =>
        if um1.isEmpty then
          { active_connections := aerase org st1.active_connections,
            typing_status := aerase org st1.typing_status }
        else st1

/-- The `for websocket in self.active_connections[org][user]` loop of
`send_personal_message` (`websocket.py` lines 89-95).  CPython iterates by
index over the very list object that the in-loop `disconnect` mutates with
`remove`, so a removal shifts the remaining elements left and the iterator
skips the element after the removed one; the fuel argument only bounds the
recursion and never runs out when it starts at the list length.  Returns
the handles whose send succeeded and the final state. -/
def send_loop (res : Nat → SendRes) (org user : Nat) :
    Nat → Nat → List Nat → ManagerState → List Nat → List Nat × ManagerState
  | 0, _, _, st, delivered => (delivered, st)
  | fuel + 1, i, l, st, delivered =>
    if h : i < l.length then
      let c := l.get ⟨i, h⟩
      match res c with
      | .ok => send_loop res org user fuel (i + 1) l st (delivered ++ [c])
      | .closed =>
        let present := (lookup_conns st org user).isSome
        let l1 := if present then l.erase c else l
        send_loop res org user fuel (i + 1) l1 (disconnect st org user c) delivered
      | .err => send_loop res org user fuel (i + 1) l st delivered
    else (delivered, st)

/-- `ConnectionManager.send_personal_message` (`websocket.py` lines 84-95):
pushes to every handle of the user; a `WebSocketDisconnect` triggers an
immediate in-loop `disconnect`, any other exception is only logged. -/
def send_personal_message (res : Nat → SendRes) (st : ManagerState)
    (org user : Nat) : List Nat × ManagerState :=
  match lookup_conns st org user with
  | none => ([], st)
  | some l => send_loop res org user l.length 0 l st []

/-- The `if exclude_user and user_id == exclude_user` test of
`broadcast_to_organization` (`websocket.py` line 110): Python truthiness
makes `exclude_user=0` (and `None`) never match. -/
def excludeHit (excl : Option Nat) (user : Nat) : Bool :=
  match excl with
  | none => false
  | some x => x != 0 && user == x

/-- Per-user fan-out of `broadcast_to_organization` (lines 113-120):
attempts every handle, collecting successes and `(websocket, user_id)`
failure pairs in order. -/
def send_all (res : Nat → SendRes) (user : Nat) :
    List Nat → List Nat × List (Nat × Nat)
  | [] => ([], [])
  | c :: cs =>
    let rest := send_all res user cs
    match res c with
    | .ok => (c :: rest.1, rest.2)
    | _ => (rest.1, (c, user) :: rest.2)

/-- The `for user_id, websockets in ...items()` loop of
`broadcast_to_organization` (lines 109-120). -/
def fanout (res : Nat → SendRes) (excl : Option Nat) :
    List (Nat × List Nat) → List Nat × List (Nat × Nat)
  | [] => ([], [])
  | (user, conns) :: rest =>
    if excludeHit excl user then fanout res excl rest
    else
      let here := send_all res user conns
      let later := fanout res excl rest
      (here.1 ++ later.1, here.2 ++ later.2)

/-- `ConnectionManager.broadcast_to_organization` (`websocket.py` lines
97-124): full fan-out pass over the organization (the registry is not
mutated during the pass), then each collected `(websocket, user_id)`
failure is disconnected, in order.  Returns the handles that received the
event, the collected failures, and the final state. -/
def broadcast_to_organization (res : Nat → SendRes) (st : ManagerState)
    (org : Nat) (excl : Option Nat) : List Nat × List (Nat × Nat) × ManagerState :=
  match alookup org st.active_connections with
  | none => ([], [], st)
  | some um =>
    let pass := fanout res excl um
    (pass.1, pass.2, pass.2.foldl (fun s q => disconnect s org q.2 q.1) st)

/-- State effect of `ConnectionManager.handle_typing_status`
(`websocket.py` lines 160-167): overwrite the typing entry with the client
payload and a fresh server timestamp.  The immediate `typing_status`
broadcast (lines 170-178) only delivers an event. -/
def handle_typing_status (st : ManagerState) (org user : Nat) (d : TypingData)
    (now : String) : ManagerState :=
  let tm := (alookup org st.typing_status).getD []
  let entry : TypingEntry :=
    { is_typing := d.is_typing.getD false, context := d.context, timestamp := now }
  { st with typing_status := aset org (aset user entry tm) st.typing_status }

/-- The delayed clear body of `handle_typing_status` (`websocket.py` lines
183-197), run 3 seconds after an event whose payload `d` had a truthy
`is_typing`: the stored entry is flipped to `is_typing=False` (and
rebroadcast, delivery-only) only when the stored server timestamp equals
`typing_data.get("timestamp")` of the scheduling event payload. -/
def handle_typing_clear (st : ManagerState) (org user : Nat) (d : TypingData) :
    ManagerState :=
  match alookup org st.typing_status with
  | none => st
  | some tm =>
    match alookup user tm with
    | none => st
    | some entry =>
      let fires :=
        match d.timestamp with
        | none => false
        | some t => entry.timestamp == t
      if fires then
        let entry1 : TypingEntry := { entry with is_typing := false }
        { st with typing_status := aset org (aset user entry1 tm) st.typing_status }
      else st

/-- An abstract registry operation, for quantifying over all finite
sequences of `connect` / `disconnect` (and typing-state writes). -/
inductive RegOp where
  | reg (org user conn : Nat)
  | unreg (org user conn : Nat)
  | typing (org user : Nat) (d : TypingData) (now : String)

def applyOp (st : ManagerState) : RegOp → ManagerState
  | .reg org user conn => connect st org user conn
  | .unreg org user conn => disconnect st org user conn
  | .typing org user d now => handle_typing_status st org user d now

def runOps (ops : List RegOp) : ManagerState := ops.foldl applyOp emptyManager

end ConnectionRegistry

section ClaimC7

/-- Claim C7: every session store operation (create, get, update, delete,
bulk delete, cleanup, active count) invoked while the backing store is
unreachable degrades to a no-op or an absent/empty result - create returns
the empty identifier, get returns absent, the count returns 0 - and, being
total functions in this embedding of the `try/except`-wrapped source,
never raises an error to the caller. -/
theorem c7_unreachable_store_degrades (st : RedisState) (u : Nat) (ud : UserData)
    (fresh now sid : String) :
    create_session false st u ud fresh now = ("", st) ∧
    get_session false st sid now = (none, st) ∧
    update_session false st sid ud now = st ∧
    delete_session false st sid now = st ∧
    delete_user_sessions false st u = st ∧
    cleanup_expired_sessions false st = st ∧
    get_active_sessions_count false st u = 0 :=
  ⟨rfl, rfl, rfl, rfl, rfl, rfl, rfl⟩

end ClaimC7

section ClaimC9

theorem fanout_exclude_zero (res : Nat → SendRes) (um : List (Nat × List Nat)) :
    fanout res (some 0) um = fanout res none um := by
  induction um with
  | nil => rfl
  | cons p rest ih =>
    obtain ⟨user, conns⟩ := p
    simp [fanout, excludeHit, ih]

/-- Claim C9: a user is skipped by `broadcast_to_organization` only when the
excluded id is both equal to the user and truthy, so excluding user 0
behaves exactly like excluding nobody: user 0 still receives a broadcast
that names them as the excluded user. -/
theorem c9_exclude_user_zero_is_no_exclusion (res : Nat → SendRes)
    (st : ManagerState) (org : Nat) :
    broadcast_to_organization res st org (some 0) =
      broadcast_to_organization res st org none := by
  unfold broadcast_to_organization
  cases h : alookup org st.active_connections with
  | none => rfl
  | some um => simp [fanout_exclude_zero]

end ClaimC9

section ClaimC1

/-- Claim C1 (evaluation at the failing input): two `is_typing=true` events
for user 2 of organization 1 whose payload carries no `timestamp` field
(the documented `typing` payload is exactly `is_typing` and `context`),
stored under server clock readings "T1" and then "T2".  The delayed clear
scheduled from the first event does not fire (that much of the claim
holds), but the delayed clear scheduled from the second event does not
fire either: the code compares the stored server timestamp against
`typing_data.get("timestamp")` of the client payload instead of the
timestamp captured at schedule time, so the entry is never flipped to
`is_typing=false`, contradicting the claim and the source comment
`Auto-clear typing status after 3 seconds`. -/
theorem c1_typing_clear_never_fires :
    let d : TypingData := { is_typing := some true, context := none, timestamp := none }
    let st2 := handle_typing_status
      (handle_typing_status emptyManager 1 2 d "T1") 1 2 d "T2"
    handle_typing_clear (handle_typing_clear st2 1 2 d) 1 2 d = st2 ∧
      alookup 2 ((alookup 1 st2.typing_status).getD []) =
        some { is_typing := true, context := none, timestamp := "T2" } :=
  ⟨rfl, rfl⟩

end ClaimC1

section ClaimC2

/-- Claim C2 is false on the code: `revoke_token` decodes with the same
fully validating `jwt.decode` call used for verification, so a token whose
expiry has passed raises `ExpiredSignatureError` (a `JWTError`), which is
silently swallowed - the referenced session is NOT deleted.  Concretely:
a correctly signed token with `exp = 50` naming live session `sid1` is
revoked at time 100 and the whole store, session included, is unchanged. -/
theorem c2_counterexample :
    let record : SessionRecord :=
      { user_id := 7, user_data := ⟨7, "e", "n", true⟩,
        created_at := "c0", last_activity := "c0" }
    let st : RedisState := { sessions := [("sid1", record)], user_sessions := [(7, ["sid1"])] }
    let tok : Token :=
      { claims := { exp := 50, sub := some "7", type := some "access",
                    session_id := some "sid1" }, key := "k" }
    revoke_token "k" tok true st 100 "t1" = st ∧
      alookup "sid1" (revoke_token "k" tok true st 100 "t1").sessions = some record :=
  ⟨rfl, rfl⟩

theorem sremFrom_sessions (st : RedisState) (u : Nat) (sid : String) :
    (sremFrom st u sid).sessions = st.sessions := by
  unfold sremFrom
  cases alookup u st.user_sessions with
  | none => rfl
  | some prev =>
    by_cases h : (prev.erase sid).isEmpty <;> simp [h]

/-- Claim C2 (amended): `revoke_token` decodes the session identifier only
from a token whose signature verifies and whose expiry has not passed; an
expired (or badly signed) token is a silent no-op that leaves the session
in place, while for a valid token naming a nonempty session identifier the
referenced session is deleted from the session store. -/
theorem c2_revoke_requires_valid_token (secret : String) (tok : Token) (r : Bool)
    (st : RedisState) (now : Nat) (nowS sid : String)
    (hnd : (akeys st.sessions).Nodup) :
    (tok.claims.exp < now → revoke_token secret tok r st now nowS = st) ∧
    (tok.key = secret → now ≤ tok.claims.exp → tok.claims.session_id = some sid →
      sid ≠ "" → alookup sid (revoke_token secret tok true st now nowS).sessions = none) := by
  constructor
  · intro h
    have hno : ¬(tok.key = secret ∧ now ≤ tok.claims.exp) := by
      rintro ⟨-, hle⟩
      omega
    simp [revoke_token, jwtDecode, hno]
  · intro hk hle hsid hne
    have hdec : jwtDecode tok secret now = some tok.claims := by
      rw [jwtDecode, if_pos (And.intro hk hle)]
    have hbe : (sid == "") = false := by simp [hne]
    simp only [revoke_token, hdec, hsid, if_pos hne]
    simp only [delete_session, get_session, Bool.not_true, Bool.false_or, hbe,
      Bool.false_eq_true, if_false]
    cases hrec : alookup sid st.sessions with
    | none => simp [hrec]
    | some record =>
      simp only [hrec, sremFrom_sessions]
      rw [aerase_aset]
      exact alookup_aerase_self_of_nodup sid st.sessions hnd

/-- Concrete instantiation of the amended C2 theorem: revoking a valid
unexpired token that names session `sid1` removes that session. -/
theorem c2_revoke_requires_valid_token_witness :
    alookup "sid1"
      (revoke_token "k"
        ⟨{ exp := 50, sub := some "7", type := some "access", session_id := some "sid1" }, "k"⟩
        true
        ⟨[("sid1", ⟨7, ⟨7, "e", "n", true⟩, "c0", "c0"⟩)], [(7, ["sid1"])]⟩
        10 "t1").sessions = none :=
  (c2_revoke_requires_valid_token "k"
      ⟨{ exp := 50, sub := some "7", type := some "access", session_id := some "sid1" }, "k"⟩
      true
      ⟨[("sid1", ⟨7, ⟨7, "e", "n", true⟩, "c0", "c0"⟩)], [(7, ["sid1"])]⟩
      10 "t1" "sid1" (by decide)).2 rfl (by decide) rfl (by decide)

end ClaimC2

section ClaimC10

/-- Claim C10 is false in one corner: a correctly signed, unexpired
`access` token whose subject is not numeric but which embeds a session
identifier is rejected with the `invalid` result (no exception) when the
store is reachable and the session record is absent, because
`get_session` returns `None` and the function returns before ever running
`int(user_id)`.  Concretely: subject `alice@example.com`, session id
`s1`, empty reachable store. -/
theorem c10_counterexample :
    (verify_access_token "k"
        ⟨{ exp := 10, sub := some "alice@example.com", type := some "access",
           session_id := some "s1" }, "k"⟩
        true emptyRedis 0 "t").1 = VerifyOutcome.invalid ∧
      pyInt "alice@example.com" = none :=
  ⟨rfl, rfl⟩

/-- Claim C10 (amended): for every token whose signature and expiry verify
and whose type marker is `access` but whose subject is not a decimal
numeral, `verify_access_token` raises the uncaught `int` conversion error
instead of returning a result - except in one configuration: when the
token embeds a nonempty session identifier, the store is reachable, and
the referenced session is absent, the token is rejected with the
`invalid` result before the conversion runs.  In every other
configuration (no embedded session id, an empty one, an unreachable
store, or a session record that exists) the conversion error escapes. -/
theorem c10_nonnumeric_subject_raises (secret : String) (tok : Token) (r : Bool)
    (st : RedisState) (now : Nat) (nowS s : String)
    (hkey : tok.key = secret) (hexp : now ≤ tok.claims.exp)
    (htype : tok.claims.type = some "access") (hsub : tok.claims.sub = some s)
    (hnum : pyInt s = none) :
    ((tok.claims.session_id = none ∨ tok.claims.session_id = some "" ∨ r = false ∨
        (∃ sid record, tok.claims.session_id = some sid ∧ sid ≠ "" ∧
          alookup sid st.sessions = some record)) →
      (verify_access_token secret tok r st now nowS).1 = VerifyOutcome.raised) ∧
    (∀ sid, tok.claims.session_id = some sid → sid ≠ "" → r = true →
      alookup sid st.sessions = none →
      (verify_access_token secret tok r st now nowS).1 = VerifyOutcome.invalid) := by
  have hdec : jwtDecode tok secret now = some tok.claims := by
    rw [jwtDecode, if_pos (And.intro hkey hexp)]
  constructor
  · rintro (hsid | hsid | hr | ⟨sid, record, hsid, hne, hrec⟩)
    · simp [verify_access_token, hdec, hsub, htype, hsid, hnum]
    · simp [verify_access_token, hdec, hsub, htype, hsid, hnum]
    · subst hr
      cases hsid : tok.claims.session_id with
      | none => simp [verify_access_token, hdec, hsub, htype, hsid, hnum]
      | some sid => simp [verify_access_token, hdec, hsub, htype, hsid, hnum]
    · have hbe : (sid == "") = false := by simp [hne]
      cases r with
      | false => simp [verify_access_token, hdec, hsub, htype, hsid, hnum]
      | true =>
        simp [verify_access_token, hdec, hsub, htype, hsid, hbe, get_session, hne, hrec, hnum]
  · intro sid hsid hne hr hrec
    subst hr
    have hbe : (sid == "") = false := by simp [hne]
    simp [verify_access_token, hdec, hsub, htype, hsid, hbe, get_session, hne, hrec]

/-- Concrete instantiation of the amended C10 theorem: with no embedded
session id the conversion error escapes, and with an embedded id naming an
absent session (reachable store) the result is `invalid`. -/
theorem c10_nonnumeric_subject_raises_witness :
    (verify_access_token "k"
        ⟨{ exp := 10, sub := some "bob@example.com", type := some "access",
           session_id := none }, "k"⟩ true emptyRedis 0 "t").1 = VerifyOutcome.raised ∧
    (verify_access_token "k"
        ⟨{ exp := 10, sub := some "bob@example.com", type := some "access",
           session_id := some "s9" }, "k"⟩ true emptyRedis 0 "t").1 = VerifyOutcome.invalid := by
  constructor
  · exact (c10_nonnumeric_subject_raises "k"
      ⟨{ exp := 10, sub := some "bob@example.com", type := some "access",
         session_id := none }, "k"⟩ true emptyRedis 0 "t" "bob@example.com"
      rfl (by decide) rfl rfl (by decide)).1 (Or.inl rfl)
  · exact (c10_nonnumeric_subject_raises "k"
      ⟨{ exp := 10, sub := some "bob@example.com", type := some "access",
         session_id := some "s9" }, "k"⟩ true emptyRedis 0 "t" "bob@example.com"
      rfl (by decide) rfl rfl (by decide)).2 "s9" rfl (by decide) rfl rfl

end ClaimC10

section ClaimC8

/-- Claim C8 is false on the code: `send_personal_message` only disconnects
a handle on `WebSocketDisconnect`; any other write failure is merely
logged.  Concretely: the only handle (10) of user 2 in organization 1
fails with a generic error, nothing is delivered, and the handle is still
registered afterwards. -/
theorem c8_counterexample :
    let st : ManagerState := { active_connections := [(1, [(2, [10])])], typing_status := [] }
    send_personal_message (fun _ => SendRes.err) st 1 2 = ([], st) ∧
      lookup_conns (send_personal_message (fun _ => SendRes.err) st 1 2).2 1 2 = some [10] :=
  ⟨rfl, rfl⟩

theorem send_loop_no_closed (res : Nat → SendRes) (org user : Nat) :
    ∀ fuel i (l : List Nat) (st : ManagerState) (delivered : List Nat),
      l.length ≤ i + fuel → (∀ c ∈ l, res c ≠ SendRes.closed) →
      send_loop res org user fuel i l st delivered =
        (delivered ++ (l.drop i).filter (fun c => (res c).isOk), st) := by
  intro fuel
  induction fuel with
  | zero =>
    intro i l st delivered hlen hnc
    have : l.drop i = [] := List.drop_eq_nil_of_le (by omega)
    simp [send_loop, this]
  | succ f ih =>
    intro i l st delivered hlen hnc
    by_cases h : i < l.length
    · have hdrop : l.drop i = l[i] :: l.drop (i + 1) := List.drop_eq_getElem_cons h
      have hmem : l[i] ∈ l := List.getElem_mem h
      simp only [send_loop, dif_pos h, List.get_eq_getElem]
      cases hres : res l[i] with
      | ok =>
        rw [ih (i + 1) l st (delivered ++ [l[i]]) (by omega) hnc, hdrop, List.filter_cons]
        simp only [hres, SendRes.isOk, if_true, List.append_assoc, List.singleton_append]
      | closed => exact absurd hres (hnc l[i] hmem)
      | err =>
        rw [ih (i + 1) l st delivered (by omega) hnc, hdrop, List.filter_cons]
        simp [hres, SendRes.isOk]
    · have : l.drop i = [] := List.drop_eq_nil_of_le (by omega)
      simp [send_loop, dif_neg h, this]

/-- Claim C8 (amended): `send_personal_message` walks the registered
connection list of the user in order.  When no push fails with a
disconnect-type error, every handle is pushed, the successful ones receive
the event, and the registry is unchanged - a handle failing with any other
write error is only logged and stays registered.  A handle failing with a
disconnect-type error is unregistered immediately via `disconnect`, which
mutates the list being iterated, so the handle that follows it is skipped
(here shown on a two-handle list: the second handle is neither pushed nor
disconnected). -/
theorem c8_send_failure_semantics (res : Nat → SendRes) (st : ManagerState)
    (org user : Nat) :
    (∀ l, lookup_conns st org user = some l → (∀ c ∈ l, res c ≠ SendRes.closed) →
       send_personal_message res st org user = (l.filter (fun c => (res c).isOk), st)) ∧
    (∀ c1 c2, lookup_conns st org user = some [c1, c2] → res c1 = SendRes.closed →
       send_personal_message res st org user = ([], disconnect st org user c1)) := by
  constructor
  · intro l hl hnc
    simp only [send_personal_message, hl]
    rw [send_loop_no_closed res org user l.length 0 l st [] (by omega) hnc]
    simp
  · intro c1 c2 hl hres
    simp only [send_personal_message, hl]
    simp [send_loop, hres, hl, List.erase_cons_head]

/-- Concrete instantiation of the amended C8 theorem: a generic write
failure on handle 10 leaves it registered while handle 11 is delivered,
and a disconnect-type failure on handle 20 unregisters it while skipping
handle 21. -/
theorem c8_send_failure_semantics_witness :
    send_personal_message (fun c => if c = 10 then SendRes.err else SendRes.ok)
        ({ active_connections := [(1, [(2, [10, 11])])], typing_status := [] }) 1 2 =
      ([11], { active_connections := [(1, [(2, [10, 11])])], typing_status := [] }) ∧
    send_personal_message (fun _ => SendRes.closed)
        ({ active_connections := [(1, [(2, [20, 21])])], typing_status := [] }) 1 2 =
      ([], disconnect { active_connections := [(1, [(2, [20, 21])])], typing_status := [] }
             1 2 20) := by
  constructor
  · have h := (c8_send_failure_semantics (fun c => if c = 10 then SendRes.err else SendRes.ok)
      { active_connections := [(1, [(2, [10, 11])])], typing_status := [] } 1 2).1
      [10, 11] rfl (by decide)
    simpa using h
  · exact (c8_send_failure_semantics (fun _ => SendRes.closed)
      { active_connections := [(1, [(2, [20, 21])])], typing_status := [] } 1 2).2
      20 21 rfl rfl

end ClaimC8

section TokenHelpers

theorem saddTo_sessions (st : RedisState) (u : Nat) (sid : String) :
    (saddTo st u sid).sessions = st.sessions := rfl

/-- The expiry claim computed by `create_access_token` (a zero timedelta is
falsy, selecting the default window). -/
def tokenExpiry (dm now : Nat) (ttl : Option Nat) : Nat :=
  match ttl with
  | some d => if d ≠ 0 then now + d else now + dm * 60
  | none => now + dm * 60

theorem now_le_tokenExpiry (dm now : Nat) (ttl : Option Nat) :
    now ≤ tokenExpiry dm now ttl := by
  rcases ttl with _ | d
  · exact Nat.le_add_right now _
  · by_cases hd : d ≠ 0
    · simp [tokenExpiry, hd]
    · simp [tokenExpiry, hd]

/-- Issuance with a reachable store, a truthy snapshot id, and a nonempty
generated session id: the session is created and embedded. -/
theorem create_access_token_with_session (secret : String) (dm : Nat) (subject : String)
    (snap : UserData) (ttl : Option Nat) (st : RedisState) (now : Nat) (nowS fresh : String)
    (hu : snap.id ≠ 0) (hf : fresh ≠ "") :
    create_access_token secret dm subject (some snap) ttl true st now nowS fresh =
      ({ claims := { exp := tokenExpiry dm now ttl, sub := some subject,
                     type := some "access", session_id := some fresh }, key := secret },
       saddTo { sessions := aset fresh
                  { user_id := snap.id, user_data := snap,
                    created_at := nowS, last_activity := nowS } st.sessions,
                user_sessions := st.user_sessions } snap.id fresh) := by
  simp [create_access_token, create_session, hu, hf, tokenExpiry]

/-- Issuance with an unreachable store embeds no session and leaves the
store untouched. -/
theorem create_access_token_unreachable (secret : String) (dm : Nat) (subject : String)
    (ud : Option UserData) (ttl : Option Nat) (st : RedisState) (now : Nat)
    (nowS fresh : String) :
    create_access_token secret dm subject ud ttl false st now nowS fresh =
      ({ claims := { exp := tokenExpiry dm now ttl, sub := some subject,
                     type := some "access", session_id := none }, key := secret }, st) := by
  cases ud <;> simp [create_access_token, tokenExpiry]

/-- Issuance with a falsy snapshot id skips session creation. -/
theorem create_access_token_zero_id (secret : String) (dm : Nat) (subject : String)
    (snap : UserData) (ttl : Option Nat) (st : RedisState) (now : Nat)
    (nowS fresh : String) (hu : snap.id = 0) :
    create_access_token secret dm subject (some snap) ttl true st now nowS fresh =
      ({ claims := { exp := tokenExpiry dm now ttl, sub := some subject,
                     type := some "access", session_id := none }, key := secret }, st) := by
  simp [create_access_token, hu, tokenExpiry]

/-- Issuance where the generated session id is empty: the `if session_id`
guard leaves the token without an embedded session. -/
theorem create_access_token_empty_fresh (secret : String) (dm : Nat) (subject : String)
    (snap : UserData) (ttl : Option Nat) (st : RedisState) (now : Nat) (nowS : String)
    (hu : snap.id ≠ 0) :
    create_access_token secret dm subject (some snap) ttl true st now nowS "" =
      ({ claims := { exp := tokenExpiry dm now ttl, sub := some subject,
                     type := some "access", session_id := none }, key := secret },
       saddTo { sessions := aset ""
                  { user_id := snap.id, user_data := snap,
                    created_at := nowS, last_activity := nowS } st.sessions,
                user_sessions := st.user_sessions } snap.id "") := by
  simp [create_access_token, create_session, hu, tokenExpiry]

/-- Verification of a token without an embedded session id (or under the
stateless fallback) succeeds on the signature alone. -/
theorem verify_fallback_token (secret : String) (u e : Nat) (r : Bool)
    (st : RedisState) (now : Nat) (nowS : String) (he : now ≤ e) :
    verify_access_token secret
        ⟨{ exp := e, sub := some (pyStr u), type := some "access", session_id := none },
          secret⟩ r st now nowS = (VerifyOutcome.ok u none none, st) := by
  simp [verify_access_token, jwtDecode, he, pyInt_pyStr]

/-- Verification of a session-bound token against a reachable store whose
record exists and matches the subject. -/
theorem verify_session_token (secret : String) (u e : Nat) (st : RedisState)
    (now : Nat) (nowS sid : String) (record : SessionRecord) (he : now ≤ e)
    (hsid : sid ≠ "") (hrec : alookup sid st.sessions = some record)
    (hmatch : record.user_id = u) :
    verify_access_token secret
        ⟨{ exp := e, sub := some (pyStr u), type := some "access", session_id := some sid },
          secret⟩ true st now nowS =
      (VerifyOutcome.ok u (some sid) (some record.user_data),
       { st with sessions := aset sid { record with last_activity := nowS } st.sessions }) := by
  have hbe : (sid == "") = false := by simp [hsid]
  simp [verify_access_token, jwtDecode, he, get_session, hbe, hrec, pyInt_pyStr, hmatch]

/-- Verification of a session-bound token against a reachable store with
no record for the session: rejected (this is revocation enforcement). -/
theorem verify_session_token_absent (secret : String) (u e : Nat) (st : RedisState)
    (now : Nat) (nowS sid : String) (he : now ≤ e) (hsid : sid ≠ "")
    (hrec : alookup sid st.sessions = none) :
    verify_access_token secret
        ⟨{ exp := e, sub := some (pyStr u), type := some "access", session_id := some sid },
          secret⟩ true st now nowS = (VerifyOutcome.invalid, st) := by
  have hbe : (sid == "") = false := by simp [hsid]
  simp [verify_access_token, jwtDecode, he, get_session, hbe, hrec]

/-- Verification of a session-bound token under an unreachable store falls
back to the signature. -/
theorem verify_session_token_unreachable (secret : String) (u e : Nat) (st : RedisState)
    (now : Nat) (nowS sid : String) (he : now ≤ e) :
    verify_access_token secret
        ⟨{ exp := e, sub := some (pyStr u), type := some "access", session_id := some sid },
          secret⟩ false st now nowS = (VerifyOutcome.ok u (some sid) none, st) := by
  simp [verify_access_token, jwtDecode, he, pyInt_pyStr]

end TokenHelpers

section ClaimC4

/-- The authenticated user id carried by a verification outcome: `some`
exactly when verification succeeded. -/
def VerifyOutcome.userId : VerifyOutcome → Option Nat
  | .ok uid _ _ => some uid
  | _ => none

/-- Claim C4: for every user id `u`, snapshot of that user, and expiry ttl,
verifying the token issued for `u` immediately after issuance succeeds and
returns `user_id = u`, both when the session store is reachable at
issuance and verification time and when it is unreachable. -/
theorem c4_verify_after_issue (secret : String) (dm u : Nat) (snap : UserData)
    (ttl : Option Nat) (r : Bool) (st : RedisState) (now : Nat)
    (nowS nowS2 fresh : String) (hsnap : snap.id = u) :
    (verify_access_token secret
        (create_access_token secret dm (pyStr u) (some snap) ttl r st now nowS fresh).1
        r (create_access_token secret dm (pyStr u) (some snap) ttl r st now nowS fresh).2
        now nowS2).1.userId = some u := by
  have hle := now_le_tokenExpiry dm now ttl
  cases r with
  | false =>
    rw [create_access_token_unreachable, verify_fallback_token secret u _ false st now nowS2 hle]
    rfl
  | true =>
    by_cases hu : snap.id = 0
    · rw [create_access_token_zero_id secret dm (pyStr u) snap ttl st now nowS fresh hu,
        verify_fallback_token secret u _ true st now nowS2 hle]
      rfl
    · by_cases hf : fresh = ""
      · subst hf
        rw [create_access_token_empty_fresh secret dm (pyStr u) snap ttl st now nowS hu,
          verify_fallback_token secret u _ true _ now nowS2 hle]
        rfl
      · rw [create_access_token_with_session secret dm (pyStr u) snap ttl st now nowS fresh hu hf,
          verify_session_token secret u _ _ now nowS2 fresh
            { user_id := snap.id, user_data := snap, created_at := nowS, last_activity := nowS }
            hle hf (by rw [saddTo_sessions]; exact alookup_aset_self fresh _ st.sessions) hsnap]
        rfl

/-- Concrete instantiation of the C4 theorem, once with a reachable store
and once with an unreachable one. -/
theorem c4_verify_after_issue_witness :
    ((⟨7, "e", "n", true⟩ : UserData).id = 7) ∧
    (verify_access_token "k"
        (create_access_token "k" 1440 (pyStr 7) (some ⟨7, "e", "n", true⟩) (some 60) true
          emptyRedis 0 "t0" "sid1").1
        true
        (create_access_token "k" 1440 (pyStr 7) (some ⟨7, "e", "n", true⟩) (some 60) true
          emptyRedis 0 "t0" "sid1").2
        0 "t1").1.userId = some 7 ∧
    (verify_access_token "k"
        (create_access_token "k" 1440 (pyStr 7) (some ⟨7, "e", "n", true⟩) (some 60) false
          emptyRedis 0 "t0" "sid1").1
        false
        (create_access_token "k" 1440 (pyStr 7) (some ⟨7, "e", "n", true⟩) (some 60) false
          emptyRedis 0 "t0" "sid1").2
        0 "t1").1.userId = some 7 :=
  ⟨rfl,
   c4_verify_after_issue "k" 1440 7 ⟨7, "e", "n", true⟩ (some 60) true emptyRedis 0
     "t0" "t1" "sid1" rfl,
   c4_verify_after_issue "k" 1440 7 ⟨7, "e", "n", true⟩ (some 60) false emptyRedis 0
     "t0" "t1" "sid1" rfl⟩

end ClaimC4

section ClaimC3

/-- Claim C3: for a token issued with an embedded session identifier
(reachable store at issuance, truthy user id, nonempty generated session
id that is genuinely fresh), revoking it and then verifying it again
fails when the session store is reachable - the session record is absent,
so the token is rejected even though its signature is valid - while the
same verification still succeeds on the signature alone when the store is
unreachable. -/
theorem c3_revoke_then_verify (secret : String) (dm u : Nat) (snap : UserData)
    (ttl : Option Nat) (st : RedisState) (now : Nat) (nowS nowS2 nowS3 fresh : String)
    (_hsnap : snap.id = u) (hu : snap.id ≠ 0) (hf : fresh ≠ "")
    (hfresh : alookup fresh st.sessions = none) :
    (create_access_token secret dm (pyStr u) (some snap) ttl true st now nowS
        fresh).1.claims.session_id = some fresh ∧
    verify_access_token secret
        (create_access_token secret dm (pyStr u) (some snap) ttl true st now nowS fresh).1
        true
        (revoke_token secret
          (create_access_token secret dm (pyStr u) (some snap) ttl true st now nowS fresh).1
          true
          (create_access_token secret dm (pyStr u) (some snap) ttl true st now nowS fresh).2
          now nowS2)
        now nowS3 =
      (VerifyOutcome.invalid,
       revoke_token secret
         (create_access_token secret dm (pyStr u) (some snap) ttl true st now nowS fresh).1
         true
         (create_access_token secret dm (pyStr u) (some snap) ttl true st now nowS fresh).2
         now nowS2) ∧
    verify_access_token secret
        (create_access_token secret dm (pyStr u) (some snap) ttl true st now nowS fresh).1
        false
        (revoke_token secret
          (create_access_token secret dm (pyStr u) (some snap) ttl true st now nowS fresh).1
          true
          (create_access_token secret dm (pyStr u) (some snap) ttl true st now nowS fresh).2
          now nowS2)
        now nowS3 =
      (VerifyOutcome.ok u (some fresh) none,
       revoke_token secret
         (create_access_token secret dm (pyStr u) (some snap) ttl true st now nowS fresh).1
         true
         (create_access_token secret dm (pyStr u) (some snap) ttl true st now nowS fresh).2
         now nowS2) := by
  have hle := now_le_tokenExpiry dm now ttl
  rw [create_access_token_with_session secret dm (pyStr u) snap ttl st now nowS fresh hu hf]
  set record : SessionRecord :=
    { user_id := snap.id, user_data := snap, created_at := nowS, last_activity := nowS }
    with hrecdef
  refine ⟨rfl, ?_⟩
  have hdec : jwtDecode
      ⟨{ exp := tokenExpiry dm now ttl, sub := some (pyStr u), type := some "access",
         session_id := some fresh }, secret⟩ secret now =
      some { exp := tokenExpiry dm now ttl, sub := some (pyStr u), type := some "access",
             session_id := some fresh } := by
    rw [jwtDecode, if_pos (And.intro rfl hle)]
  have hbe : (fresh == "") = false := by simp [hf]
  have hsess1 : alookup fresh
      (saddTo { sessions := aset fresh record st.sessions,
                user_sessions := st.user_sessions } snap.id fresh).sessions =
      some record := by
    rw [saddTo_sessions]
    exact alookup_aset_self fresh record st.sessions
  have hrevoke : alookup fresh
      (revoke_token secret
        ⟨{ exp := tokenExpiry dm now ttl, sub := some (pyStr u), type := some "access",
           session_id := some fresh }, secret⟩ true
        (saddTo { sessions := aset fresh record st.sessions,
                  user_sessions := st.user_sessions } snap.id fresh)
        now nowS2).sessions = none := by
    simp only [revoke_token, hdec, if_pos hf]
    simp only [delete_session, get_session, Bool.not_true, Bool.false_or, hbe,
      Bool.false_eq_true, if_false, hsess1]
    simp only [sremFrom_sessions, saddTo_sessions]
    rw [aerase_aset, aerase_aset, aerase_of_alookup_none fresh st.sessions hfresh]
    exact hfresh
  refine ⟨?_, ?_⟩
  · exact verify_session_token_absent secret u _ _ now nowS3 fresh hle hf hrevoke
  · exact verify_session_token_unreachable secret u _ _ now nowS3 fresh hle

/-- Concrete instantiation of the C3 theorem: issue for user 7 against an
empty reachable store, revoke, then verify under a reachable and an
unreachable store. -/
theorem c3_revoke_then_verify_witness :
    ((⟨7, "e", "n", true⟩ : UserData).id = 7) ∧ ("sid1" ≠ "") ∧
    (alookup "sid1" emptyRedis.sessions = none) ∧
    verify_access_token "k"
        (create_access_token "k" 1440 (pyStr 7) (some ⟨7, "e", "n", true⟩) (some 60) true
          emptyRedis 0 "t0" "sid1").1
        true
        (revoke_token "k"
          (create_access_token "k" 1440 (pyStr 7) (some ⟨7, "e", "n", true⟩) (some 60) true
            emptyRedis 0 "t0" "sid1").1
          true
          (create_access_token "k" 1440 (pyStr 7) (some ⟨7, "e", "n", true⟩) (some 60) true
            emptyRedis 0 "t0" "sid1").2
          0 "t1")
        0 "t2" =
      (VerifyOutcome.invalid,
       revoke_token "k"
         (create_access_token "k" 1440 (pyStr 7) (some ⟨7, "e", "n", true⟩) (some 60) true
           emptyRedis 0 "t0" "sid1").1
         true
         (create_access_token "k" 1440 (pyStr 7) (some ⟨7, "e", "n", true⟩) (some 60) true
           emptyRedis 0 "t0" "sid1").2
         0 "t1") := by
  refine ⟨rfl, by decide, rfl, ?_⟩
  exact (c3_revoke_then_verify "k" 1440 7 ⟨7, "e", "n", true⟩ (some 60) emptyRedis 0
    "t0" "t1" "t2" "sid1" rfl (by decide) (by decide) rfl).2.1

end ClaimC3

section ClaimC6

theorem send_all_eq (res : Nat → SendRes) (user : Nat) (cs : List Nat) :
    send_all res user cs =
      (cs.filter (fun c => (res c).isOk),
       (cs.filter (fun c => !(res c).isOk)).map (fun c => (c, user))) := by
  induction cs with
  | nil => rfl
  | cons c rest ih =>
    cases hres : res c <;>
      simp [send_all, hres, ih, SendRes.isOk, List.filter_cons]

theorem fanout_eq (res : Nat → SendRes) (x : Nat) (hx : x ≠ 0)
    (um : List (Nat × List Nat)) :
    fanout res (some x) um =
      (((um.filter (fun p => p.1 != x)).map
          (fun p => p.2.filter (fun c => (res c).isOk))).flatten,
       ((um.filter (fun p => p.1 != x)).map
          (fun p => (p.2.filter (fun c => !(res c).isOk)).map (fun c => (c, p.1)))).flatten) := by
  induction um with
  | nil => rfl
  | cons p rest ih =>
    obtain ⟨user, conns⟩ := p
    by_cases hu : user = x
    · subst hu
      have hh : excludeHit (some user) user = true := by simp [excludeHit, hx]
      simp [fanout, hh, ih, List.filter_cons]
    · have hh : excludeHit (some x) user = false := by simp [excludeHit, hu]
      simp [fanout, hh, ih, send_all_eq, List.filter_cons, hu]

/-- Claim C6: broadcasting to organization `org` with a truthy excluded
user `x` attempts every connection of every user except `x`: the delivered
handles are exactly the non-excluded handles whose send succeeded, the
collected failures are exactly the non-excluded handles whose send failed
(paired with their user), and the final state is obtained by
disconnecting the failed handles only after the full fan-out pass, so a
send failure on one connection never prevents delivery to any other
successful connection (second conjunct). -/
theorem c6_broadcast_fanout (res : Nat → SendRes) (st : ManagerState) (org x : Nat)
    (um : List (Nat × List Nat)) (hx : x ≠ 0)
    (hum : alookup org st.active_connections = some um) :
    broadcast_to_organization res st org (some x) =
      (((um.filter (fun p => p.1 != x)).map
          (fun p => p.2.filter (fun c => (res c).isOk))).flatten,
       ((um.filter (fun p => p.1 != x)).map
          (fun p => (p.2.filter (fun c => !(res c).isOk)).map (fun c => (c, p.1)))).flatten,
       (((um.filter (fun p => p.1 != x)).map
          (fun p => (p.2.filter (fun c => !(res c).isOk)).map (fun c => (c, p.1)))).flatten).foldl
         (fun s q => disconnect s org q.2 q.1) st) ∧
    (∀ user conns c, (user, conns) ∈ um → user ≠ x → c ∈ conns → (res c).isOk = true →
       c ∈ (broadcast_to_organization res st org (some x)).1) := by
  have hmain : broadcast_to_organization res st org (some x) =
      (((um.filter (fun p => p.1 != x)).map
          (fun p => p.2.filter (fun c => (res c).isOk))).flatten,
       ((um.filter (fun p => p.1 != x)).map
          (fun p => (p.2.filter (fun c => !(res c).isOk)).map (fun c => (c, p.1)))).flatten,
       (((um.filter (fun p => p.1 != x)).map
          (fun p => (p.2.filter (fun c => !(res c).isOk)).map (fun c => (c, p.1)))).flatten).foldl
         (fun s q => disconnect s org q.2 q.1) st) := by
    simp only [broadcast_to_organization, hum, fanout_eq res x hx um]
  refine ⟨hmain, ?_⟩
  intro user conns c hmem hne hc hok
  have h1 : (user, conns) ∈ um.filter (fun p => p.1 != x) := by
    simp only [List.mem_filter]
    exact ⟨hmem, by simpa using hne⟩
  have h2 : conns.filter (fun c => (res c).isOk) ∈
      (um.filter (fun p => p.1 != x)).map (fun p => p.2.filter (fun c => (res c).isOk)) :=
    List.mem_map_of_mem _ h1
  have h3 : c ∈ conns.filter (fun c => (res c).isOk) := by
    simp only [List.mem_filter]
    exact ⟨hc, hok⟩
  rw [hmain]
  exact List.mem_flatten.mpr ⟨_, h2, h3⟩

/-- Concrete instantiation of the C6 theorem on the spec scenario: three
users 1, 2, 3 with one connection each in organization 5, broadcast with
`exclude_user = 2`, and a forced write failure on user 1's connection:
user 3 receives the event, user 1's handle is the only failure and is
disconnected after the pass. -/
theorem c6_broadcast_fanout_witness :
    ((2 : Nat) ≠ 0) ∧
    alookup 5 ({ active_connections := [(5, [(1, [11]), (2, [12]), (3, [13])])],
                 typing_status := [] } : ManagerState).active_connections =
      some [(1, [11]), (2, [12]), (3, [13])] ∧
    broadcast_to_organization (fun c => if c = 11 then SendRes.closed else SendRes.ok)
        { active_connections := [(5, [(1, [11]), (2, [12]), (3, [13])])],
          typing_status := [] } 5 (some 2) =
      ([13], [(11, 1)],
       disconnect { active_connections := [(5, [(1, [11]), (2, [12]), (3, [13])])],
                    typing_status := [] } 5 1 11) := by
  refine ⟨by decide, rfl, ?_⟩
  have h := (c6_broadcast_fanout (fun c => if c = 11 then SendRes.closed else SendRes.ok)
      { active_connections := [(5, [(1, [11]), (2, [12]), (3, [13])])], typing_status := [] }
      5 2 [(1, [11]), (2, [12]), (3, [13])] (by decide) rfl).1
  rw [h]
  decide

end ClaimC6

section ClaimC5

theorem aset_ne_nil {κ α : Type} [DecidableEq κ] (k : κ) (v : α) (m : List (κ × α)) :
    aset k v m ≠ [] := by
  cases m with
  | nil => simp [aset]
  | cons p rest => by_cases h : p.1 = k <;> simp [aset, h]

/-- Well-formedness of the registry reachable from the empty state: both
tables have duplicate-free keys, no organization entry is an empty user
map, every user map has duplicate-free keys, and no user entry is an
empty connection list. -/
def RegWF (st : ManagerState) : Prop :=
  (akeys st.active_connections).Nodup ∧
  (akeys st.typing_status).Nodup ∧
  (∀ o um, alookup o st.active_connections = some um →
     um ≠ [] ∧ (akeys um).Nodup ∧ ∀ u cs, alookup u um = some cs → cs ≠ []) ∧
  (∀ o tm, alookup o st.typing_status = some tm → (akeys tm).Nodup)

theorem regWF_empty : RegWF emptyManager := by
  refine ⟨by simp [emptyManager, akeys], by simp [emptyManager, akeys], ?_, ?_⟩ <;>
    intro o m h <;> simp [emptyManager, alookup] at h

/-- Facts about the typing-status table after the user-cleanup step of
`disconnect` (`websocket.py` lines 59-61). -/
theorem typing_cleanup_facts (st : ManagerState) (org user : Nat)
    (hT : (akeys st.typing_status).Nodup)
    (hTM : ∀ o tm, alookup o st.typing_status = some tm → (akeys tm).Nodup) :
    ∀ typing1, typing1 = (match alookup org st.typing_status with
      | none => st.typing_status
      | some tm =>
        if (alookup user tm).isSome then aset org (aerase user tm) st.typing_status
        else st.typing_status) →
    (akeys typing1).Nodup ∧
    (∀ o tm, alookup o typing1 = some tm → (akeys tm).Nodup) ∧
    (∀ tm, alookup org typing1 = some tm → alookup user tm = none) ∧
    (∀ o, o ≠ org → alookup o typing1 = alookup o st.typing_status) := by
  intro typing1 hdef
  cases htm : alookup org st.typing_status with
  | none =>
    rw [htm] at hdef
    subst hdef
    exact ⟨hT, hTM, fun tm h => absurd h (by simp [htm]), fun o _ => rfl⟩
  | some tm =>
    rw [htm] at hdef
    replace hdef : typing1 =
        if (alookup user tm).isSome then aset org (aerase user tm) st.typing_status
        else st.typing_status := hdef
    by_cases hits : (alookup user tm).isSome
    · rw [if_pos hits] at hdef
      subst hdef
      refine ⟨akeys_nodup_aset org _ _ hT, ?_, ?_, ?_⟩
      · intro o tm0 h0
        by_cases ho : o = org
        · subst ho
          rw [alookup_aset_self] at h0
          injection h0 with h0
          subst h0
          exact akeys_nodup_aerase user tm (hTM _ tm htm)
        · rw [alookup_aset_ne o org _ _ (fun hc => ho hc.symm)] at h0
          exact hTM o tm0 h0
      · intro tm0 h0
        rw [alookup_aset_self] at h0
        injection h0 with h0
        subst h0
        exact alookup_aerase_self_of_nodup user tm (hTM _ tm htm)
      · intro o ho
        exact alookup_aset_ne o org _ _ (fun hc => ho hc.symm)
    · rw [if_neg hits] at hdef
      subst hdef
      refine ⟨hT, hTM, ?_, fun o _ => rfl⟩
      intro tm0 h0
      rw [htm] at h0
      injection h0 with h0
      subst h0
      exact Option.not_isSome_iff_eq_none.mp hits

theorem regWF_connect (st : ManagerState) (org user conn : Nat) (h : RegWF st) :
    RegWF (connect st org user conn) := by
  obtain ⟨hA, hT, hUM, hTM⟩ := h
  refine ⟨akeys_nodup_aset org _ _ hA, hT, ?_, hTM⟩
  intro o um0 h0
  simp only [connect] at h0
  by_cases ho : o = org
  · subst ho
    rw [alookup_aset_self] at h0
    injection h0 with h0
    subst h0
    refine ⟨aset_ne_nil _ _ _, akeys_nodup_aset _ _ _ ?_, ?_⟩
    · cases hbase : alookup o st.active_connections with
      | none => simp [hbase, akeys]
      | some um1 => simpa [hbase] using (hUM o um1 hbase).2.1
    · intro u cs hcs
      by_cases hu : u = user
      · subst hu
        rw [alookup_aset_self] at hcs
        injection hcs with hcs
        subst hcs
        simp
      · rw [alookup_aset_ne u user _ _ (fun hc => hu hc.symm)] at hcs
        cases hbase : alookup o st.active_connections with
        | none => rw [hbase] at hcs; simp [alookup] at hcs
        | some um1 =>
          rw [hbase] at hcs
          exact (hUM o um1 hbase).2.2 u cs hcs
  · rw [alookup_aset_ne o org _ _ (fun hc => ho hc.symm)] at h0
    exact hUM o um0 h0

theorem regWF_handle_typing (st : ManagerState) (org user : Nat) (d : TypingData)
    (now : String) (h : RegWF st) : RegWF (handle_typing_status st org user d now) := by
  obtain ⟨hA, hT, hUM, hTM⟩ := h
  refine ⟨hA, akeys_nodup_aset org _ _ hT, hUM, ?_⟩
  intro o tm0 h0
  simp only [handle_typing_status] at h0
  by_cases ho : o = org
  · subst ho
    rw [alookup_aset_self] at h0
    injection h0 with h0
    subst h0
    refine akeys_nodup_aset user _ _ ?_
    cases hbase : alookup o st.typing_status with
    | none => simp [hbase, akeys]
    | some tm1 => simpa [hbase] using hTM o tm1 hbase
  · rw [alookup_aset_ne o org _ _ (fun hc => ho hc.symm)] at h0
    exact hTM o tm0 h0

theorem isEmpty_false_of_ne_nil {α : Type} {l : List α} (h : l ≠ []) :
    l.isEmpty = false := by
  cases l with
  | nil => exact absurd rfl h
  | cons a t => rfl

theorem ne_nil_of_isEmpty_false {α : Type} {l : List α} (h : ¬l.isEmpty = true) :
    l ≠ [] := by
  intro hc
  rw [hc] at h
  exact h rfl

theorem regWF_disconnect (st : ManagerState) (org user conn : Nat) (h : RegWF st) :
    RegWF (disconnect st org user conn) := by
  obtain ⟨hA, hT, hUM, hTM⟩ := h
  cases horg : alookup org st.active_connections with
  | none =>
    simp only [disconnect, horg]
    exact ⟨hA, hT, hUM, hTM⟩
  | some um =>
    cases huser : alookup user um with
    | none =>
      simp only [disconnect, horg, huser]
      exact ⟨hA, hT, hUM, hTM⟩
    | some cs =>
      obtain ⟨hne, hnodum, hcs⟩ := hUM org um horg
      simp only [disconnect, horg, huser]
      by_cases hemp : (cs.erase conn).isEmpty = true
      · rw [if_pos hemp]
        obtain ⟨hN1, hN2, hN3, hN4⟩ :=
          typing_cleanup_facts st org user hT hTM
            (match alookup org st.typing_status with
             | none => st.typing_status
             | some tm =>
               if (alookup user tm).isSome then aset org (aerase user tm) st.typing_status
               else st.typing_status) rfl
        simp only [alookup_aset_self]
        by_cases hii : (aerase user um).isEmpty = true
        · rw [if_pos hii]
          refine ⟨akeys_nodup_aerase org _ (akeys_nodup_aset org _ _ hA),
            akeys_nodup_aerase org _ hN1, ?_, ?_⟩
          · intro o um0 h0
            by_cases ho : o = org
            · subst ho
              rw [alookup_aerase_self_of_nodup o _ (akeys_nodup_aset o _ _ hA)] at h0
              cases h0
            · rw [alookup_aerase_ne o org _ (fun hc => ho hc.symm),
                alookup_aset_ne o org _ _ (fun hc => ho hc.symm)] at h0
              exact hUM o um0 h0
          · intro o tm0 h0
            by_cases ho : o = org
            · subst ho
              rw [alookup_aerase_self_of_nodup o _ hN1] at h0
              cases h0
            · rw [alookup_aerase_ne o org _ (fun hc => ho hc.symm), hN4 o ho] at h0
              exact hTM o tm0 h0
        · rw [if_neg hii]
          refine ⟨akeys_nodup_aset org _ _ hA, hN1, ?_, hN2⟩
          intro o um0 h0
          by_cases ho : o = org
          · subst ho
            rw [alookup_aset_self] at h0
            injection h0 with h0
            subst h0
            refine ⟨ne_nil_of_isEmpty_false hii, akeys_nodup_aerase user um hnodum, ?_⟩
            intro u cs0 hcs0
            by_cases hu : u = user
            · subst hu
              rw [alookup_aerase_self_of_nodup u um hnodum] at hcs0
              cases hcs0
            · rw [alookup_aerase_ne u user um (fun hc => hu hc.symm)] at hcs0
              exact hcs u cs0 hcs0
          · rw [alookup_aset_ne o org _ _ (fun hc => ho hc.symm)] at h0
            exact hUM o um0 h0
      · rw [if_neg hemp]
        have hb : (aset user (cs.erase conn) um).isEmpty = false :=
          isEmpty_false_of_ne_nil (aset_ne_nil _ _ _)
        simp only [alookup_aset_self, hb, Bool.false_eq_true, if_false]
        refine ⟨akeys_nodup_aset org _ _ hA, hT, ?_, hTM⟩
        intro o um0 h0
        by_cases ho : o = org
        · subst ho
          rw [alookup_aset_self] at h0
          injection h0 with h0
          subst h0
          refine ⟨aset_ne_nil _ _ _, akeys_nodup_aset user _ _ hnodum, ?_⟩
          intro u cs0 hcs0
          by_cases hu : u = user
          · subst hu
            rw [alookup_aset_self] at hcs0
            injection hcs0 with hcs0
            subst hcs0
            exact ne_nil_of_isEmpty_false hemp
          · rw [alookup_aset_ne u user _ _ (fun hc => hu hc.symm)] at hcs0
            exact hcs u cs0 hcs0
        · rw [alookup_aset_ne o org _ _ (fun hc => ho hc.symm)] at h0
          exact hUM o um0 h0

/-- Registry and typing effect of `disconnect` when the removed handle was
the last connection of the user (`websocket.py` lines 55-77): the user
entry and the user typing-state entry are gone; when the user was also the
last user of the organization, the organization entry and its typing-state
map are gone. -/
theorem disconnect_last_conn (st : ManagerState) (org user conn : Nat)
    (um : List (Nat × List Nat)) (cs : List Nat) (h : RegWF st)
    (hum : alookup org st.active_connections = some um)
    (hcs : alookup user um = some cs) (hlast : cs.erase conn = []) :
    (∀ um1, alookup org (disconnect st org user conn).active_connections = some um1 →
       alookup user um1 = none) ∧
    (∀ tm1, alookup org (disconnect st org user conn).typing_status = some tm1 →
       alookup user tm1 = none) ∧
    (aerase user um = [] →
       alookup org (disconnect st org user conn).active_connections = none ∧
       alookup org (disconnect st org user conn).typing_status = none) := by
  obtain ⟨hA, hT, hUM, hTM⟩ := h
  obtain ⟨hne, hnodum, -⟩ := hUM org um hum
  obtain ⟨hN1, hN2, hN3, hN4⟩ :=
    typing_cleanup_facts st org user hT hTM
      (match alookup org st.typing_status with
       | none => st.typing_status
       | some tm =>
         if (alookup user tm).isSome then aset org (aerase user tm) st.typing_status
         else st.typing_status) rfl
  have hemp : (cs.erase conn).isEmpty = true := by rw [hlast]; rfl
  simp only [disconnect, hum, hcs]
  rw [if_pos hemp]
  simp only [alookup_aset_self]
  by_cases hii : (aerase user um).isEmpty = true
  · rw [if_pos hii]
    refine ⟨?_, ?_, fun _ => ⟨?_, ?_⟩⟩
    · intro um1 h1
      rw [alookup_aerase_self_of_nodup org _ (akeys_nodup_aset org _ _ hA)] at h1
      cases h1
    · intro tm1 h1
      rw [alookup_aerase_self_of_nodup org _ hN1] at h1
      cases h1
    · exact alookup_aerase_self_of_nodup org _ (akeys_nodup_aset org _ _ hA)
    · exact alookup_aerase_self_of_nodup org _ hN1
  · rw [if_neg hii]
    refine ⟨?_, hN3, ?_⟩
    · intro um1 h1
      rw [alookup_aset_self] at h1
      injection h1 with h1
      subst h1
      exact alookup_aerase_self_of_nodup user um hnodum
    · intro hz
      exact absurd (by rw [hz]; rfl : (aerase user um).isEmpty = true) hii

theorem regWF_applyOp (st : ManagerState) (op : RegOp) (h : RegWF st) :
    RegWF (applyOp st op) := by
  cases op with
  | reg o u c => exact regWF_connect st o u c h
  | unreg o u c => exact regWF_disconnect st o u c h
  | typing o u d n => exact regWF_handle_typing st o u d n h

theorem regWF_runOps (ops : List RegOp) : RegWF (runOps ops) := by
  suffices h : ∀ st, RegWF st → RegWF (ops.foldl applyOp st) from h emptyManager regWF_empty
  induction ops with
  | nil => intro st h; exact h
  | cons op rest ih => intro st h; exact ih _ (regWF_applyOp st op h)

/-- Claim C5: over every finite sequence of register, unregister (and
typing-state) operations from the empty registry, no organization entry is
an empty user map and no user entry is an empty connection list; moreover
on any reachable state, removing the last connection of a user deletes
the user entry and that user typing-state entry, and removing the last
user of an organization deletes the organization entry and its
typing-state map. -/
theorem c5_registry_invariant (ops : List RegOp) :
    (∀ o um, alookup o (runOps ops).active_connections = some um →
       um ≠ [] ∧ ∀ u cs, alookup u um = some cs → cs ≠ []) ∧
    (∀ org user conn um cs,
       alookup org (runOps ops).active_connections = some um →
       alookup user um = some cs → cs.erase conn = [] →
       (∀ um1, alookup org (disconnect (runOps ops) org user conn).active_connections =
          some um1 → alookup user um1 = none) ∧
       (∀ tm1, alookup org (disconnect (runOps ops) org user conn).typing_status =
          some tm1 → alookup user tm1 = none) ∧
       (aerase user um = [] →
          alookup org (disconnect (runOps ops) org user conn).active_connections = none ∧
          alookup org (disconnect (runOps ops) org user conn).typing_status = none)) := by
  have hwf := regWF_runOps ops
  refine ⟨?_, ?_⟩
  · intro o um h0
    obtain ⟨h1, -, h3⟩ := hwf.2.2.1 o um h0
    exact ⟨h1, h3⟩
  · intro org user conn um cs hum hcs hlast
    exact disconnect_last_conn (runOps ops) org user conn um cs hwf hum hcs hlast

/-- Concrete instantiation of the C5 theorem: register one connection for
user 2 of organization 1, write a typing entry, then remove that last
connection: the user entry, the organization entry, and both typing-state
levels are gone. -/
theorem c5_registry_invariant_witness :
    alookup 1 (runOps [RegOp.reg 1 2 10,
        RegOp.typing 1 2 ⟨some true, none, none⟩ "T"]).active_connections =
      some [(2, [10])] ∧
    ([10].erase 10 = ([] : List Nat)) ∧
    alookup 1 (disconnect (runOps [RegOp.reg 1 2 10,
        RegOp.typing 1 2 ⟨some true, none, none⟩ "T"]) 1 2 10).active_connections = none ∧
    alookup 1 (disconnect (runOps [RegOp.reg 1 2 10,
        RegOp.typing 1 2 ⟨some true, none, none⟩ "T"]) 1 2 10).typing_status = none := by
  have h := (c5_registry_invariant [RegOp.reg 1 2 10,
      RegOp.typing 1 2 ⟨some true, none, none⟩ "T"]).2 1 2 10 [(2, [10])] [10] rfl rfl rfl
  exact ⟨rfl, rfl, (h.2.2 rfl).1, (h.2.2 rfl).2⟩

end ClaimC5
